import Mathlib

/-!
Verification of the pagination layer, the blocking bridge and the email
component of the crates.io request-handling substrate.

The pagination helpers (`src/controllers/helpers/pagination.rs`) and the
blocking bridge (`spawn_blocking` in `src/tasks.rs` / `conduit-axum`) are not
among the provided sources; only their caller `src/controllers/keyword.rs` is.
Those parts are therefore modelled from the specification, as marked on each
definition.  The email component is embedded from `src/email.rs`.
-/

namespace CratesIo

/-- Modelled from the spec: the configured maximum page size `MAX_PAGE_SIZE`
of `src/controllers/helpers/pagination.rs` (not among the provided sources);
the spec's boundary example uses 100. -/
def MAX_PAGE_SIZE : Nat := 100

/-- Modelled from the spec: the default `per_page` used when the raw
parameter is absent (`src/controllers/helpers/pagination.rs` is not among the
provided sources). -/
def DEFAULT_PER_PAGE : Nat := 10

/-- Modelled from the spec: the two pagination strategies.  Exactly one of the
two variants is active: offset pagination by 1-based page number, or seek
pagination by a decoded cursor position in the total order. -/
inductive Strategy where
  | offset (page : Nat)
  | seek (cursor : Nat)
deriving DecidableEq

/-- Modelled from the spec: parsed, validated representation of a page
request (`PaginationOptions` of the pagination helpers, not among the
provided sources). -/
structure PaginationOptions where
  strategy : Strategy
  perPage : Nat
deriving DecidableEq

/-- Modelled from the spec: the client errors of the pagination parse step.
Every value is a 4xx-equivalent client error. -/
inductive ClientError where
  | invalidPage
  | invalidPerPage
  | invalidCursor
  | conflictingStrategies
deriving DecidableEq

/-- Modelled from the spec: the raw pagination query parameters arriving as
request metadata (`page`, `per_page`, or a seek-cursor token).  Numeric
parameters are integers so that negative raw values can be expressed;
the seek token is the raw opaque string. -/
structure RawParams where
  page : Option Int
  perPage : Option Int
  seek : Option String
deriving DecidableEq

/-- Modelled from the spec: decoding of the opaque seek cursor into a
position in the total order; an unparseable token decodes to `none`.  The
encoding is modelled as the decimal notation of the position. -/
def decodeCursor (s : String) : Option Nat :=
  if s.toList ≠ [] ∧ s.toList.all Char.isDigit then
    some (s.toList.foldl (fun n ch => 10 * n + (ch.toNat - 48)) 0)
  else none

/-- Modelled from the spec: strategy selection of the parse step.  Exactly one
strategy is active; a seek token combined with a page number is a client
error, an unparseable cursor is a client error, a page below 1 is a client
error, and a missing page defaults to 1. -/
def gatherStrategy (raw : RawParams) (perPage : Nat) :
    Except ClientError PaginationOptions :=
  match raw.seek with
  | some s =>
    if raw.page.isSome then .error .conflictingStrategies
    else
      match decodeCursor s with
      | some c => .ok ⟨.seek c, perPage⟩
      | none => .error .invalidCursor
  | none =>
    match raw.page with
    | some k => if k < 1 then .error .invalidPage else .ok ⟨.offset k.toNat, perPage⟩
    | none => .ok ⟨.offset 1, perPage⟩

/-- Modelled from the spec: the parse/validate entry point
(`PaginationOptions::builder().gather(&req)` as called from
`src/controllers/keyword.rs`).  A raw `per_page` below 1 or above
`MAX_PAGE_SIZE` is a client error, not silently clamped. -/
def gather (raw : RawParams) : Except ClientError PaginationOptions :=
  match raw.perPage with
  | some p =>
    if p < 1 ∨ (MAX_PAGE_SIZE : Int) < p then .error .invalidPerPage
    else gatherStrategy raw p.toNat
  | none => gatherStrategy raw DEFAULT_PER_PAGE

/-- Modelled from the spec: the modifications the pagination layer applies to
a query (it only shapes the query): a row limit, a row offset, or a filter
keeping rows strictly after a cursor position. -/
inductive QueryMod where
  | limitBy (n : Nat)
  | offsetBy (n : Nat)
  | afterCursor (c : Nat)

/-- Modelled from the spec: the meaning of one query modification over an
ordered row sequence, with `key` the sort key of a row. -/
def applyMod {α : Type} (key : α → Nat) : QueryMod → List α → List α
  | .limitBy n, l => l.take n
  | .offsetBy n, l => l.drop n
  | .afterCursor c, l => l.filter fun r => decide (c < key r)

/-- Modelled from the spec: the query modifications of each strategy, in
application order.  The offset strategy applies `OFFSET = (page - 1) *
per_page` then `LIMIT = per_page`; the seek strategy applies the
strictly-after-cursor filter then `LIMIT = per_page`. -/
def Strategy.mods : Strategy → Nat → List QueryMod
  | .offset page, per => [.offsetBy ((page - 1) * per), .limitBy per]
  | .seek c, per => [.afterCursor c, .limitBy per]

/-- Modelled from the spec: executing a shaped query over the ordered
sequence of rows matching the query's filter. -/
def runQuery {α : Type} (key : α → Nat) (mods : List QueryMod) (data : List α) :
    List α :=
  mods.foldl (fun l m => applyMod key m l) data

/-- Modelled from the spec: the window query of a strategy, `data` being the
ordered sequence of rows matching the query's filter. -/
def window {α : Type} (key : α → Nat) (s : Strategy) (per : Nat) (data : List α) :
    List α :=
  runQuery key (s.mods per) data

/-- Modelled from the spec: the separately computed aggregate count query -
the count of all rows matching the same filter, ignoring limit and offset. -/
def countQuery {α : Type} (data : List α) : Nat := data.length

/-- Modelled from the spec: `Paginated<T>`, a capped window of rows together
with the total matching count. -/
structure Paginated (α : Type) where
  rows : List α
  total : Nat

/-- Modelled from the spec: the single execution producing a `Paginated<T>`
(`query.load(conn)` in `src/controllers/keyword.rs`): the window query gives
the rows, the aggregate count query gives the total.  Execution always
produces a result; pagination exhaustion is not an error. -/
def paginate {α : Type} (key : α → Nat) (opts : PaginationOptions)
    (data : List α) : Paginated α :=
  ⟨window key opts.strategy opts.perPage data, countQuery data⟩

/-- Modelled from the spec: the possible behaviours of one offloaded unit of
work (the work closure handed to `spawn_blocking`, whose implementation in
`src/tasks.rs` / `conduit-axum` is not among the provided sources): it either
returns normally with a value, returns an application error, or terminates
abruptly before producing a value. -/
inductive WorkOutcome (V E : Type) where
  | normal (v : V)
  | appError (e : E)
  | abort
deriving DecidableEq

/-- Modelled from the spec: `BlockingTaskResult<T>`, the outcome of one
offloaded unit of work as seen by the awaiting caller: `Ok`, the inner
application error, or the distinguished worker-fault value. -/
inductive BlockingTaskResult (V E : Type) where
  | ok (v : V)
  | err (e : E)
  | workerFault
deriving DecidableEq

/-- Modelled from the spec: the Blocking Bridge's translation of a unit of
work's terminal behaviour into the awaited `BlockingTaskResult`; abrupt
termination is caught at the worker boundary and turned into the worker-fault
value, never swallowed and never left pending. -/
def bridgeResolve {V E : Type} : WorkOutcome V E → BlockingTaskResult V E
  | .normal v => .ok v
  | .appError e => .err e
  | .abort => .workerFault

/-- C1: for every execution of a query carrying valid `PaginationOptions`
with `per_page = p`, the resulting `Paginated<T>` satisfies
`rows.len() <= p` and `total >= rows.len()`, for any dataset size. -/
theorem paginate_rows_length_le_perPage_and_le_total {α : Type}
    (raw : RawParams) (opts : PaginationOptions) (_h : gather raw = .ok opts)
    (key : α → Nat) (data : List α) :
    (paginate key opts data).rows.length ≤ opts.perPage ∧
    (paginate key opts data).rows.length ≤ (paginate key opts data).total := by
  have hw : ∀ s : Strategy,
      (window key s opts.perPage data).length ≤ opts.perPage ∧
      (window key s opts.perPage data).Sublist data := by
    intro s
    cases s with
    | offset page =>
      refine ⟨?_, (List.take_sublist _ _).trans (List.drop_sublist _ _)⟩
      simp only [window, runQuery, Strategy.mods, applyMod, List.foldl,
        List.length_take]
      exact min_le_left _ _
    | seek c =>
      refine ⟨?_, (List.take_sublist _ _).trans (List.filter_sublist _)⟩
      simp only [window, runQuery, Strategy.mods, applyMod, List.foldl,
        List.length_take]
      exact min_le_left _ _
  exact ⟨(hw opts.strategy).1, ((hw opts.strategy).2).length_le⟩

/-- C1 witness at a concrete request and dataset. -/
theorem paginate_rows_length_le_perPage_and_le_total_witness :
    (paginate id ⟨.offset 1, 2⟩ [5, 6, 7]).rows.length ≤ 2 ∧
    (paginate id ⟨.offset 1, 2⟩ [5, 6, 7]).rows.length ≤
      (paginate id ⟨.offset 1, 2⟩ [5, 6, 7]).total :=
  paginate_rows_length_le_perPage_and_le_total ⟨none, some 2, none⟩
    ⟨.offset 1, 2⟩ rfl id [5, 6, 7]

/-- C2: for every dataset and every valid page number or seek cursor, the
`total` field of the returned `Paginated<T>` equals the full count of rows
matching the query's filter, independent of which page or cursor window was
requested. -/
theorem paginate_total_independent_of_window {α : Type} (key : α → Nat)
    (o o2 : PaginationOptions) (data : List α) :
    (paginate key o data).total = countQuery data ∧
    (paginate key o data).total = (paginate key o2 data).total :=
  ⟨rfl, rfl⟩

/-- C3: under the offset strategy the executed window query applies
`LIMIT = per_page` and `OFFSET = (page - 1) * per_page` with 1-based page
numbers, and every request with `page < 1` is rejected as a client error. -/
theorem offset_window_shape_and_page_lt_one_rejected (α : Type) :
    (∀ (key : α → Nat) (page per : Nat) (data : List α),
        window key (.offset page) per data =
          (data.drop ((page - 1) * per)).take per) ∧
    ∀ (raw : RawParams) (k : Int), raw.page = some k → k < 1 →
      ∃ e, gather raw = .error e := by
  constructor
  · intro key page per data
    simp [window, runQuery, Strategy.mods, applyMod]
  · intro raw k hk hlt
    rcases raw with ⟨rp, rpp, rs⟩
    simp only at hk
    subst hk
    unfold gather gatherStrategy
    cases rpp with
    | none =>
      cases rs with
      | none => simp [hlt]
      | some s => exact ⟨.conflictingStrategies, by simp⟩
    | some p =>
      by_cases hp : p < 1 ∨ (MAX_PAGE_SIZE : Int) < p
      · exact ⟨.invalidPerPage, by simp [hp]⟩
      · cases rs with
        | none => exact ⟨.invalidPage, by simp [hp, hlt]⟩
        | some s => exact ⟨.conflictingStrategies, by simp [hp]⟩

/-- C3 witness: a concrete window and a concrete rejected `page = 0`. -/
theorem offset_window_shape_and_page_lt_one_rejected_witness :
    window id (.offset 2) 2 [5, 6, 7, 8, 9] = ([5, 6, 7, 8, 9].drop 2).take 2 ∧
    ∃ e, gather ⟨some 0, none, none⟩ = .error e :=
  ⟨(offset_window_shape_and_page_lt_one_rejected Nat).1 id 2 2 [5, 6, 7, 8, 9],
   (offset_window_shape_and_page_lt_one_rejected Nat).2 ⟨some 0, none, none⟩ 0
     rfl (by decide)⟩

/-- C4: for every dataset and every valid page or cursor positioned beyond
the last row (including `total == 0`), executing the paginated query succeeds
with `rows = []` and an unchanged, accurate total; exhaustion is never an
error (`paginate` is a total function into `Paginated`). -/
theorem paginate_beyond_end_empty_rows_total_unchanged {α : Type}
    (key : α → Nat) (opts : PaginationOptions) (data : List α) :
    (∀ page per, opts = ⟨.offset page, per⟩ → data.length ≤ (page - 1) * per →
        (paginate key opts data).rows = [] ∧
        (paginate key opts data).total = countQuery data) ∧
    (∀ c per, opts = ⟨.seek c, per⟩ → (∀ r ∈ data, key r ≤ c) →
        (paginate key opts data).rows = [] ∧
        (paginate key opts data).total = countQuery data) ∧
    (countQuery data = 0 → (paginate key opts data).rows = []) := by
  refine ⟨?_, ?_, ?_⟩
  · intro page per hopts hbeyond
    subst hopts
    refine ⟨?_, rfl⟩
    simp only [paginate, window, runQuery, Strategy.mods, applyMod, List.foldl]
    rw [List.drop_eq_nil_of_le hbeyond, List.take_nil]
  · intro c per hopts hall
    subst hopts
    refine ⟨?_, rfl⟩
    simp only [paginate, window, runQuery, Strategy.mods, applyMod, List.foldl]
    have : data.filter (fun r => decide (c < key r)) = [] := by
      rw [List.filter_eq_nil_iff]
      intro r hr
      simpa using Nat.not_lt.mpr (hall r hr)
    rw [this, List.take_nil]
  · intro h0
    have : data = [] := List.length_eq_zero.mp h0
    subst this
    cases opts with
    | mk s per =>
      cases s <;>
        simp [paginate, window, runQuery, Strategy.mods, applyMod]

/-- C4 witness: page 4 of a 5-row dataset at `per_page = 2`, a seek cursor
past the last key, and the empty dataset. -/
theorem paginate_beyond_end_empty_rows_total_unchanged_witness :
    ((paginate id ⟨.offset 4, 2⟩ [1, 2, 3, 4, 5]).rows = [] ∧
      (paginate id ⟨.offset 4, 2⟩ [1, 2, 3, 4, 5]).total = countQuery [1, 2, 3, 4, 5]) ∧
    ((paginate id ⟨.seek 9, 2⟩ [1, 2, 3, 4, 5]).rows = [] ∧
      (paginate id ⟨.seek 9, 2⟩ [1, 2, 3, 4, 5]).total = countQuery [1, 2, 3, 4, 5]) ∧
    (paginate (id : Nat → Nat) ⟨.offset 1, 2⟩ []).rows = [] :=
  ⟨(paginate_beyond_end_empty_rows_total_unchanged id ⟨.offset 4, 2⟩
      [1, 2, 3, 4, 5]).1 4 2 rfl (by decide),
   (paginate_beyond_end_empty_rows_total_unchanged id ⟨.seek 9, 2⟩
      [1, 2, 3, 4, 5]).2.1 9 2 rfl (by decide),
   (paginate_beyond_end_empty_rows_total_unchanged id ⟨.offset 1, 2⟩ []).2.2
     rfl⟩

/-- C5: for every unit of work dispatched through the Blocking Bridge, the
awaited outcome is exactly `Ok(V)` on normal return, the inner `Err(E)` on an
application error, and the distinguished worker-fault value on abrupt
termination; abrupt termination is never swallowed (the worker-fault value
arises from no other behaviour) and the bridge always resolves. -/
theorem bridgeResolve_three_shapes (V E : Type) (o : WorkOutcome V E) :
    (∀ v, o = .normal v → bridgeResolve o = .ok v) ∧
    (∀ e, o = .appError e → bridgeResolve o = .err e) ∧
    (o = .abort → bridgeResolve o = .workerFault) ∧
    (bridgeResolve o = .workerFault → o = .abort) := by
  refine ⟨?_, ?_, ?_, ?_⟩
  · intro v hv; subst hv; rfl
  · intro e he; subst he; rfl
  · intro ha; subst ha; rfl
  · intro hf
    cases o with
    | normal v => exact absurd hf (by simp [bridgeResolve])
    | appError e => exact absurd hf (by simp [bridgeResolve])
    | abort => rfl

/-- C5 witness at the three concrete behaviours over `Nat`-valued work. -/
theorem bridgeResolve_three_shapes_witness :
    bridgeResolve (.normal 3 : WorkOutcome Nat Nat) = .ok 3 ∧
    bridgeResolve (.appError 7 : WorkOutcome Nat Nat) = .err 7 ∧
    bridgeResolve (.abort : WorkOutcome Nat Nat) = .workerFault :=
  ⟨(bridgeResolve_three_shapes Nat Nat (.normal 3)).1 3 rfl,
   (bridgeResolve_three_shapes Nat Nat (.appError 7)).2.1 7 rfl,
   (bridgeResolve_three_shapes Nat Nat .abort).2.2.1 rfl⟩

/-- The strategy-selection step passes the already-validated `per_page`
through unchanged. -/
theorem gatherStrategy_perPage_eq (raw : RawParams) (pp : Nat)
    (opts : PaginationOptions) (h : gatherStrategy raw pp = .ok opts) :
    opts.perPage = pp := by
  rcases raw with ⟨rp, rpp, rs⟩
  unfold gatherStrategy at h
  cases rs with
  | some s =>
    simp only at h
    split at h
    · exact absurd h (by simp)
    · cases hd : decodeCursor s with
      | some c => rw [hd] at h; cases h; rfl
      | none => rw [hd] at h; exact absurd h (by simp)
  | none =>
    cases rp with
    | some k =>
      simp only at h
      split at h
      · exact absurd h (by simp)
      · cases h; rfl
    | none => cases h; rfl

/-- The strategy-selection step never reports a per-page error; that
rejection happens before it, in `gather`. -/
theorem gatherStrategy_ne_invalidPerPage (raw : RawParams) (pp : Nat) :
    gatherStrategy raw pp ≠ .error .invalidPerPage := by
  rcases raw with ⟨rp, rpp, rs⟩
  unfold gatherStrategy
  cases rs with
  | some s =>
    simp only
    split
    · simp
    · cases decodeCursor s <;> simp
  | none =>
    cases rp with
    | some k => simp only; split <;> simp
    | none => simp

/-- C6: a raw `per_page` strictly above the configured maximum is rejected as
a client error, not silently clamped; `per_page` equal to the maximum is not
rejected; and every accepted `per_page` lies in `[1, MAX_PAGE_SIZE]`. -/
theorem gather_perPage_boundary :
    (∀ (raw : RawParams) (p : Int), raw.perPage = some p →
        (MAX_PAGE_SIZE : Int) < p → gather raw = .error .invalidPerPage) ∧
    (∀ raw : RawParams, raw.perPage = some (MAX_PAGE_SIZE : Int) →
        gather raw ≠ .error .invalidPerPage) ∧
    (∀ (raw : RawParams) (opts : PaginationOptions), gather raw = .ok opts →
        1 ≤ opts.perPage ∧ opts.perPage ≤ MAX_PAGE_SIZE) := by
  refine ⟨?_, ?_, ?_⟩
  · intro raw p hp hover
    unfold gather
    rw [hp]
    simp [Or.inr hover]
  · intro raw hp
    unfold gather
    rw [hp]
    have hcond : ¬((MAX_PAGE_SIZE : Int) < 1 ∨
        (MAX_PAGE_SIZE : Int) < (MAX_PAGE_SIZE : Int)) := by decide
    simp only [hcond, if_false]
    exact gatherStrategy_ne_invalidPerPage _ _
  · intro raw opts h
    rcases raw with ⟨rp, rpp, rs⟩
    unfold gather at h
    cases rpp with
    | none =>
      replace h : gatherStrategy ⟨rp, none, rs⟩ DEFAULT_PER_PAGE = .ok opts := h
      have := gatherStrategy_perPage_eq ⟨rp, none, rs⟩ DEFAULT_PER_PAGE opts h
      rw [this]
      exact ⟨by decide, by decide⟩
    | some p =>
      replace h : (if p < 1 ∨ (MAX_PAGE_SIZE : Int) < p
          then (Except.error ClientError.invalidPerPage :
            Except ClientError PaginationOptions)
          else gatherStrategy ⟨rp, some p, rs⟩ p.toNat) = .ok opts := h
      by_cases hp : p < 1 ∨ (MAX_PAGE_SIZE : Int) < p
      · rw [if_pos hp] at h
        exact absurd h (by simp)
      · rw [if_neg hp] at h
        have hper := gatherStrategy_perPage_eq ⟨rp, some p, rs⟩ p.toNat opts h
        push_neg at hp
        rw [hper]
        unfold MAX_PAGE_SIZE at hp ⊢
        omega

/-- C6 witness at the exact boundary: 101 rejected, 100 accepted, accepted
`per_page` within bounds. -/
theorem gather_perPage_boundary_witness :
    gather ⟨none, some 101, none⟩ = .error .invalidPerPage ∧
    gather ⟨none, some 100, none⟩ ≠ .error .invalidPerPage ∧
    (1 ≤ (⟨.offset 1, 100⟩ : PaginationOptions).perPage ∧
      (⟨.offset 1, 100⟩ : PaginationOptions).perPage ≤ MAX_PAGE_SIZE) :=
  ⟨gather_perPage_boundary.1 ⟨none, some 101, none⟩ 101 rfl (by decide),
   gather_perPage_boundary.2.1 ⟨none, some 100, none⟩ rfl,
   gather_perPage_boundary.2.2 ⟨none, some 100, none⟩ ⟨.offset 1, 100⟩ rfl⟩

/-- C7: under the offset strategy over a dataset with a deterministic total
order (no duplicate rows), for every page number `k >= 1` and fixed
`per_page`, pages `k` and `k + 1` return disjoint row sets, and their
concatenation is the contiguous window of the full order starting at page
`k`'s offset - hence preserves the relative sequence of the full order. -/
theorem offset_adjacent_pages_disjoint_and_ordered {α : Type} (key : α → Nat)
    (data : List α) (hnd : data.Nodup) (k per : Nat) (hk : 1 ≤ k) :
    List.Disjoint (window key (.offset k) per data)
      (window key (.offset (k + 1)) per data) ∧
    window key (.offset k) per data ++ window key (.offset (k + 1)) per data =
      (data.drop ((k - 1) * per)).take (per + per) ∧
    (window key (.offset k) per data ++
      window key (.offset (k + 1)) per data).Sublist data := by
  have hw : ∀ page, window key (.offset page) per data =
      (data.drop ((page - 1) * per)).take per := by
    intro page
    simp [window, runQuery, Strategy.mods, applyMod]
  have hkp : k * per = (k - 1) * per + per := by
    conv_lhs => rw [← Nat.sub_add_cancel hk]
    rw [Nat.add_mul, one_mul]
  have hcat : window key (.offset k) per data ++
      window key (.offset (k + 1)) per data =
      (data.drop ((k - 1) * per)).take (per + per) := by
    rw [hw k, hw (k + 1), List.take_add, List.drop_drop]
    have h2 : (k + 1 - 1) * per = (k - 1) * per + per := by
      rw [Nat.add_sub_cancel, hkp]
    rw [h2]
  have hsub : (window key (.offset k) per data ++
      window key (.offset (k + 1)) per data).Sublist data := by
    rw [hcat]
    exact (List.take_sublist _ _).trans (List.drop_sublist _ _)
  have hnodup := List.Nodup.sublist hsub hnd
  exact ⟨(List.nodup_append.mp hnodup).2.2, hcat, hsub⟩

/-- C7 witness: pages 1 and 2 at `per_page = 2` over a five-row dataset. -/
theorem offset_adjacent_pages_disjoint_and_ordered_witness :
    List.Disjoint (window id (.offset 1) 2 [10, 20, 30, 40, 50])
      (window id (.offset (1 + 1)) 2 [10, 20, 30, 40, 50]) ∧
    window id (.offset 1) 2 [10, 20, 30, 40, 50] ++
      window id (.offset (1 + 1)) 2 [10, 20, 30, 40, 50] =
      ([10, 20, 30, 40, 50].drop ((1 - 1) * 2)).take (2 + 2) ∧
    (window id (.offset 1) 2 [10, 20, 30, 40, 50] ++
      window id (.offset (1 + 1)) 2 [10, 20, 30, 40, 50]).Sublist
      [10, 20, 30, 40, 50] :=
  offset_adjacent_pages_disjoint_and_ordered id [10, 20, 30, 40, 50]
    (by decide) 1 2 (by decide)

/-- In a strictly increasing list, filtering for elements strictly greater
than a distinguished middle element keeps exactly the suffix after it. -/
theorem filter_gt_middle (l₁ l₂ : List Nat) (c : Nat)
    (h : (l₁ ++ c :: l₂).Pairwise (· < ·)) :
    (l₁ ++ c :: l₂).filter (fun x => decide (c < x)) = l₂ := by
  rcases List.pairwise_append.mp h with ⟨h1, h2, h12⟩
  rw [List.filter_append]
  have e1 : l₁.filter (fun x => decide (c < x)) = [] := by
    rw [List.filter_eq_nil_iff]
    intro a ha
    have hac : a < c := h12 a ha c (List.mem_cons_self c l₂)
    simp only [decide_eq_true_eq]
    omega
  have e2 : (c :: l₂).filter (fun x => decide (c < x)) = l₂ := by
    rw [List.filter_cons_of_neg (by simp)]
    exact List.filter_eq_self.mpr fun b hb => by
      simpa using List.rel_of_pairwise_cons h2 hb
  rw [e1, e2, List.nil_append]

/-- Dropping as many elements as a `take` returned is the same as dropping
the requested amount. -/
theorem drop_length_take {α : Type} (t : List α) (per : Nat) :
    t.drop (t.take per).length = t.drop per := by
  rw [List.length_take]
  rcases le_total per t.length with h | h
  · rw [min_eq_left h]
  · rw [min_eq_right h, List.drop_eq_nil_of_le h,
      List.drop_eq_nil_of_le (le_refl _)]

/-- In a strictly increasing list, the elements strictly after the last
element of the first `per`-sized block are exactly the remaining suffix. -/
theorem sorted_filter_getLast_take (t : List Nat) (ht : t.Pairwise (· < ·))
    (per : Nat) (hne : t.take per ≠ []) :
    t.filter (fun x => decide ((t.take per).getLast hne < x)) =
      t.drop (t.take per).length := by
  set c2 := (t.take per).getLast hne with hc2def
  have hdecomp : (t.take per).dropLast ++ c2 :: t.drop per = t := by
    rw [hc2def, ← List.singleton_append, ← List.append_assoc,
      List.dropLast_append_getLast hne, List.take_append_drop]
  conv_lhs => rw [← hdecomp]
  rw [filter_gt_middle _ _ _ (by rw [hdecomp]; exact ht), drop_length_take]

/-- Filtering for elements above a larger threshold ignores a previous
filter with a smaller threshold. -/
theorem filter_gt_filter_gt (data : List Nat) (c c2 : Nat) (hcc : c < c2) :
    (data.filter fun x => decide (c < x)).filter (fun x => decide (c2 < x)) =
      data.filter fun x => decide (c2 < x) := by
  rw [List.filter_filter]
  apply List.filter_congr
  intro x hx
  by_cases h : c2 < x
  · have hcx : c < x := lt_trans hcc h
    simp [h, hcx]
  · simp [h]

/-- Inserting an element the filter rejects does not change the filtered
list. -/
theorem filter_orderedInsert_not_kept (a : Nat) (l : List Nat)
    (p : Nat → Bool) (hp : p a = false) :
    (List.orderedInsert (· ≤ ·) a l).filter p = l.filter p := by
  induction l with
  | nil => simp [List.orderedInsert, hp]
  | cons b l ih =>
    rw [List.orderedInsert]
    by_cases hab : a ≤ b
    · rw [if_pos hab, List.filter_cons_of_neg (by simp [hp])]
    · rw [if_neg hab, List.filter_cons, List.filter_cons, ih]

/-- C8: under the seek strategy over a strictly ordered dataset, feeding the
cursor derived from the last row of one result into the next call yields the
next contiguous block of rows (no duplicate, no skipped row); inserting a row
at or before that cursor between calls leaves the next window unchanged; and
an unparseable cursor token is rejected as a client error rather than falling
back to page 1. -/
theorem seek_traversal_contiguous_stable_invalid_cursor_rejected
    (data : List Nat) (hs : data.Pairwise (· < ·)) (c per c2 : Nat)
    (hlast : (window id (.seek c) per data).getLast? = some c2) :
    (window id (.seek c2) per data =
      ((data.filter fun x => decide (c < x)).drop
        (window id (.seek c) per data).length).take per) ∧
    (∀ a, a ≤ c2 →
      window id (.seek c2) per (List.orderedInsert (· ≤ ·) a data) =
        window id (.seek c2) per data) ∧
    (∀ (raw : RawParams) (s : String), raw.seek = some s →
      decodeCursor s = none → ∃ e, gather raw = .error e) := by
  have hwin : ∀ (c0 : Nat) (l : List Nat),
      window id (.seek c0) per l = (l.filter fun x => decide (c0 < x)).take per := by
    intro c0 l
    simp [window, runQuery, Strategy.mods, applyMod]
  have hne : (data.filter fun x => decide (c < x)).take per ≠ [] := by
    intro hnil
    rw [hwin, hnil, List.getLast?_nil] at hlast
    cases hlast
  have hc2 : ((data.filter fun x => decide (c < x)).take per).getLast hne = c2 := by
    rw [hwin] at hlast
    rw [List.getLast?_eq_getLast _ hne] at hlast
    exact Option.some.inj hlast
  have hmem : c2 ∈ data.filter fun x => decide (c < x) := by
    rw [← hc2]
    exact List.mem_of_mem_take (List.getLast_mem hne)
  have hcc : c < c2 := by simpa using List.of_mem_filter hmem
  refine ⟨?_, ?_, ?_⟩
  · have hfil : (data.filter fun x => decide (c2 < x)) =
        (data.filter fun x => decide (c < x)).drop
          ((data.filter fun x => decide (c < x)).take per).length := by
      rw [← sorted_filter_getLast_take _ (List.Pairwise.filter _ hs) per hne, hc2,
        filter_gt_filter_gt data c c2 hcc]
    rw [hwin, hwin, hfil]
  · intro a ha
    rw [hwin, hwin]
    congr 1
    apply filter_orderedInsert_not_kept
    simp only [decide_eq_false_iff_not, not_lt]
    exact ha
  · intro raw s hseek hdec
    rcases raw with ⟨rp, rpp, rs⟩
    simp only at hseek
    subst hseek
    unfold gather gatherStrategy
    cases rpp with
    | none =>
      cases rp with
      | some k => exact ⟨.conflictingStrategies, by simp⟩
      | none => exact ⟨.invalidCursor, by simp [hdec]⟩
    | some p =>
      by_cases hp : p < 1 ∨ (MAX_PAGE_SIZE : Int) < p
      · exact ⟨.invalidPerPage, by simp [hp]⟩
      · cases rp with
        | some k => exact ⟨.conflictingStrategies, by simp [hp]⟩
        | none => exact ⟨.invalidCursor, by simp [hp, hdec]⟩

/-- C8 witness: a concrete seek traversal (cursor 0, then the derived cursor
2), a stable insertion at the cursor, and a rejected unparseable token. -/
theorem seek_traversal_contiguous_stable_invalid_cursor_rejected_witness :
    (window id (.seek 2) 2 [1, 2, 3, 4, 5] =
      (([1, 2, 3, 4, 5].filter fun x => decide (0 < x)).drop
        (window id (.seek 0) 2 [1, 2, 3, 4, 5]).length).take 2) ∧
    (window id (.seek 2) 2 (List.orderedInsert (· ≤ ·) 2 [1, 2, 3, 4, 5]) =
      window id (.seek 2) 2 [1, 2, 3, 4, 5]) ∧
    (∃ e, gather ⟨none, none, some "zz"⟩ = .error e) := by
  have h := seek_traversal_contiguous_stable_invalid_cursor_rejected
    [1, 2, 3, 4, 5] (by decide) 0 2 2 (by decide)
  exact ⟨h.1, h.2.1 2 (le_refl 2),
    h.2.2 ⟨none, none, some "zz"⟩ "zz" rfl (by decide)⟩

/-! Email component, embedded from `src/email.rs`. -/

/-- The server environment (`crate::Env`), as matched against
`Env::Production` in `Emails::from_environment`. -/
inductive Env where
  | development
  | test
  | production
deriving DecidableEq

/-- The slice of `config::Server` that `Emails::from_environment` reads:
`config.base.env` and `config.domain_name`. -/
structure ConfigServer where
  env : Env
  domainName : String
deriving DecidableEq

/-- The results of the three `dotenvy::var` lookups in
`Emails::from_environment` (`MAILGUN_SMTP_LOGIN`, `MAILGUN_SMTP_PASSWORD`,
`MAILGUN_SMTP_SERVER`); `none` models a missing variable. -/
structure SmtpVars where
  login : Option String
  password : Option String
  server : Option String
deriving DecidableEq

/-- The message assembled by `Emails::send` via `lettre`'s builder: message
ID, recipient, sender, subject and plain-text body. -/
structure Message where
  messageId : String
  toAddr : String
  fromAddr : String
  subject : String
  body : String
deriving DecidableEq

/-- `EmailBackend` of `src/email.rs`: the SMTP relay transport (server plus
credentials), the local filesystem transport (directory), or the in-memory
stub transport used by tests, which records the messages it accepted. -/
inductive EmailBackend where
  | smtp (server login password : String)
  | fileSystem (path : String)
  | memory (sent : List Message)
deriving DecidableEq

/-- `matches!(backend, EmailBackend::Smtp { .. })`. -/
def EmailBackend.isSmtp : EmailBackend → Bool
  | .smtp _ _ _ => true
  | _ => false

/-- `EmailError` of `src/email.rs`. -/
inductive EmailError where
  | addressError
  | messageBuilderError
  | transportError
deriving DecidableEq

/-- Characters the modelled mailbox parser accepts in an address atom. -/
def isAtomChar (ch : Char) : Bool :=
  ch.isAlphanum || ch == '.' || ch == '-' || ch == '_' || ch == '+'

/-- Modelled behaviour of the external mailbox-address parser that
`Emails::send` and `Emails::from_environment` call (`lettre`'s `Mailbox`
parsing, outside this repository): an address parses when it has exactly one
`@` separating a nonempty local part and a nonempty domain, both made of
plain atom characters. -/
def parseMailbox (s : String) : Option String :=
  match s.toList.splitOn '@' with
  | [lp, dp] =>
    if lp ≠ [] ∧ dp ≠ [] ∧ lp.all isAtomChar ∧ dp.all isAtomChar then some s
    else none
  | _ => none

/-- `DEFAULT_FROM` of `src/email.rs`. -/
def DEFAULT_FROM : String := "noreply@crates.io"

/-- `Emails` of `src/email.rs`: the chosen backend, the domain used for
message IDs, and the sender mailbox. -/
structure Emails where
  backend : EmailBackend
  domain : String
  fromAddr : String
deriving DecidableEq

/-- The backend selection of `Emails::from_environment` (`src/email.rs`):
the SMTP transport exactly when all three variables are present, otherwise
the filesystem transport under `/tmp`. -/
def chooseBackend (vars : SmtpVars) : EmailBackend :=
  match vars.login, vars.password, vars.server with
  | some login, some password, some server =>
      EmailBackend.smtp server login password
  | _, _, _ => EmailBackend.fileSystem "/tmp"

/-- `Emails::from_environment` (`src/email.rs`): the sender is the SMTP
login or `DEFAULT_FROM`, parsed with `.unwrap()`; the backend is selected by
`chooseBackend`; finally a non-SMTP backend in production panics.  `none`
models a panic. -/
def fromEnvironment (config : ConfigServer) (vars : SmtpVars) :
    Option Emails := do
  let fromAddr ← parseMailbox (vars.login.getD DEFAULT_FROM)
  if config.env = .production ∧ (chooseBackend vars).isSmtp = false then none
  else some ⟨chooseBackend vars, config.domainName, fromAddr⟩

/-- `Emails::new_in_memory` (`src/email.rs`). -/
def newInMemory : Emails := ⟨.memory [], "crates.io", DEFAULT_FROM⟩

/-- `EmailBackend::send` (`src/email.rs`): each transport relays the message;
the external SMTP and filesystem transports are modelled as accepting it, the
in-memory stub records it (as `StubTransport::new_ok` does).  The returned
backend carries the updated stored messages. -/
def EmailBackend.sendMessage : EmailBackend → Message →
    Except EmailError EmailBackend
  | .memory sent, m => .ok (.memory (sent ++ [m]))
  | b, _ => .ok b

/-- `Emails::send` (`src/email.rs`): the randomly generated message ID is an
explicit argument; the recipient is parsed first and an unparseable recipient
returns the address error before any message reaches the backend transport.
Returns the result together with the possibly updated backend state. -/
def Emails.send (e : Emails) (messageId recipient subject body : String) :
    Except EmailError Unit × Emails :=
  match parseMailbox recipient with
  | none => (.error .addressError, e)
  | some toAddr =>
    let msg : Message := ⟨messageId, toAddr, e.fromAddr, subject, body⟩
    match e.backend.sendMessage msg with
    | .ok b2 => (.ok (), { e with backend := b2 })
    | .error err => (.error err, e)

/-- The chosen backend is the SMTP variant exactly when all three SMTP
environment variables are present. -/
theorem chooseBackend_isSmtp_iff (vars : SmtpVars) :
    (chooseBackend vars).isSmtp = true ↔
      vars.login.isSome ∧ vars.password.isSome ∧ vars.server.isSome := by
  rcases vars with ⟨l, p, s⟩
  rcases l with _ | lv <;> rcases p with _ | pv <;> rcases s with _ | sv <;>
    simp [chooseBackend, EmailBackend.isSmtp]

/-- C9: in a production configuration, `Emails::from_environment` panics
unless all three SMTP environment variables are set, and whenever it does
construct a value the backend is the SMTP variant, never the filesystem
variant. -/
theorem fromEnvironment_production_requires_smtp (config : ConfigServer)
    (vars : SmtpVars) (hprod : config.env = .production) :
    (¬(vars.login.isSome ∧ vars.password.isSome ∧ vars.server.isSome) →
        fromEnvironment config vars = none) ∧
    (∀ e, fromEnvironment config vars = some e →
        e.backend.isSmtp = true ∧
        vars.login.isSome ∧ vars.password.isSome ∧ vars.server.isSome) := by
  constructor
  · intro hmiss
    have hb : (chooseBackend vars).isSmtp = false := by
      cases hbb : (chooseBackend vars).isSmtp
      · rfl
      · exact absurd ((chooseBackend_isSmtp_iff vars).mp hbb) hmiss
    unfold fromEnvironment
    cases parseMailbox (vars.login.getD DEFAULT_FROM) <;> simp [hprod, hb]
  · intro e he
    unfold fromEnvironment at he
    cases hpm : parseMailbox (vars.login.getD DEFAULT_FROM) with
    | none =>
      rw [hpm] at he
      cases he
    | some fa =>
      rw [hpm] at he
      replace he : (if config.env = Env.production ∧
            (chooseBackend vars).isSmtp = false
          then (none : Option Emails)
          else some ⟨chooseBackend vars, config.domainName, fa⟩) = some e := he
      by_cases hb : (chooseBackend vars).isSmtp = false
      · rw [if_pos ⟨hprod, hb⟩] at he
        cases he
      · have htrue : (chooseBackend vars).isSmtp = true := by
          cases hbb : (chooseBackend vars).isSmtp
          · exact absurd hbb hb
          · rfl
        rw [if_neg (fun hc => hb hc.2)] at he
        injection he with he2
        refine ⟨?_, (chooseBackend_isSmtp_iff vars).mp htrue⟩
        rw [← he2]
        exact htrue

/-- C9 witness: with no SMTP variables set, production construction panics;
with all three set, the constructed backend is the SMTP variant. -/
theorem fromEnvironment_production_requires_smtp_witness :
    fromEnvironment ⟨.production, "crates.io"⟩ ⟨none, none, none⟩ = none ∧
    (EmailBackend.smtp "smtp.example.com" "login@crates.io" "pw").isSmtp
      = true :=
  ⟨(fromEnvironment_production_requires_smtp ⟨.production, "crates.io"⟩
      ⟨none, none, none⟩ rfl).1 (by simp),
   ((fromEnvironment_production_requires_smtp ⟨.production, "crates.io"⟩
       ⟨some "login@crates.io", some "pw", some "smtp.example.com"⟩ rfl).2
     ⟨.smtp "smtp.example.com" "login@crates.io" "pw", "crates.io",
       "login@crates.io"⟩ (by decide)).1⟩

/-- C10: a recipient that does not parse as a valid mailbox makes
`Emails::send` return the address error and hands no message to the backend
transport (the backend state is unchanged); a parseable recipient on the
in-memory backend sends successfully. -/
theorem send_invalid_recipient_errors_memory_ok (e : Emails)
    (messageId recipient subject body : String) :
    (parseMailbox recipient = none →
        (e.send messageId recipient subject body).1 = .error .addressError ∧
        (e.send messageId recipient subject body).2 = e) ∧
    (∀ t sent, parseMailbox recipient = some t → e.backend = .memory sent →
        (e.send messageId recipient subject body).1 = .ok ()) := by
  constructor
  · intro hp
    unfold Emails.send
    rw [hp]
    exact ⟨rfl, rfl⟩
  · intro t sent hp hb
    unfold Emails.send
    rw [hp, hb]
    rfl

/-- C10 witness: the in-memory backend rejects `"not an email"` untouched
and accepts `"someone@example.com"`. -/
theorem send_invalid_recipient_errors_memory_ok_witness :
    ((newInMemory.send "mid1" "not an email" "subj" "hello").1 =
        .error .addressError ∧
      (newInMemory.send "mid1" "not an email" "subj" "hello").2 =
        newInMemory) ∧
    (newInMemory.send "mid1" "someone@example.com" "subj" "hello").1 =
      .ok () :=
  ⟨(send_invalid_recipient_errors_memory_ok newInMemory "mid1" "not an email"
      "subj" "hello").1 (by decide),
   (send_invalid_recipient_errors_memory_ok newInMemory "mid1"
      "someone@example.com" "subj" "hello").2 "someone@example.com" []
     (by decide) rfl⟩

end CratesIo
